import Mathlib

/-!
# Inventory Ledger & Valuation Engine — verification development

Shallow embedding of the stock-view inventory core: the pure cost model
(`src/lib/utils/calculations.ts`), the movement-processor form handlers
(purchase, transformation, waste, manual adjustment, audit completion), and
the stock-ledger state they act on.  JavaScript `number` arithmetic is
modelled over `ℚ`; an IEEE division whose result is not a finite number
(division by zero producing `Infinity`/`NaN`) is modelled as `Option.none`.
Ledger mutation itself is performed by database triggers that are not part
of the repository; those primitives are modelled from the specification and
carry a `Modelled from the spec:` note in their doc comment.
-/

namespace StockView

/-! ## Cost model (`src/lib/utils/calculations.ts`) -/

/-- `calculateVAT(amount, vatRate){ return amount * vatRate }`. -/
def calculateVAT (amount vatRate : ℚ) : ℚ :=
  amount * vatRate

/-- `calculateTotalWithVAT(amount, vatRate){ return amount + calculateVAT(amount, vatRate) }`. -/
def calculateTotalWithVAT (amount vatRate : ℚ) : ℚ :=
  amount + calculateVAT amount vatRate

/-- `calculateAverageCost(currentQuantity, currentAverageCost, newQuantity, newCost)`:
returns `0` when both quantities are `0`, otherwise
`totalValue / totalQuantity` with `totalValue = currentQuantity*currentAverageCost
+ newQuantity*newCost` and `totalQuantity = currentQuantity + newQuantity`.
When `totalQuantity = 0` outside the guarded case, the JavaScript division
yields `Infinity`/`NaN` (no finite result), modelled here as `none`. -/
def calculateAverageCost (currentQuantity currentAverageCost newQuantity newCost : ℚ) :
    Option ℚ :=
  if currentQuantity = 0 ∧ newQuantity = 0 then
    some 0
  else
    let totalValue := currentQuantity * currentAverageCost + newQuantity * newCost
    let totalQuantity := currentQuantity + newQuantity
    if totalQuantity = 0 then none else some (totalValue / totalQuantity)

/-! ## Claims about the cost model -/

/-- **C2.** `calculateAverageCost` returns the quantity-weighted blend
`(currentQty*currentAvgCost + newQty*newCost) / (currentQty + newQty)` whenever
that formula is defined (the denominator is nonzero), and returns `0` when both
quantities are `0`. -/
theorem calculateAverageCost_spec (a b c d : ℚ) :
    (a = 0 ∧ c = 0 → calculateAverageCost a b c d = some 0) ∧
    (a + c ≠ 0 → calculateAverageCost a b c d = some ((a * b + c * d) / (a + c))) := by
  constructor
  · rintro ⟨rfl, rfl⟩
    simp [calculateAverageCost]
  · intro h
    have h2 : ¬(a = 0 ∧ c = 0) := by
      rintro ⟨rfl, rfl⟩
      exact h (by ring)
    simp [calculateAverageCost, h, h2]

theorem calculateAverageCost_spec_witness :
    calculateAverageCost 0 1 0 2 = some 0 ∧
    calculateAverageCost 2 3 4 5 = some ((2 * 3 + 4 * 5) / (2 + 4)) :=
  ⟨(calculateAverageCost_spec 0 1 0 2).1 (by norm_num),
   (calculateAverageCost_spec 2 3 4 5).2 (by norm_num)⟩

/-- **C3, counterexample.** The claim asserts `blendAverageCost(0,0,q,c) = c` for
*every* quantity `q`; at `q = 0`, `c = 1` the function takes the both-zero guard
and returns `0`, not `1`.  Likewise `blendAverageCost(q,c,0,x)` at `q = 0` returns
`0`, not `c`. -/
theorem calculateAverageCost_zero_qty_counterexample :
    calculateAverageCost 0 0 0 1 = some 0 ∧
    calculateAverageCost 0 1 0 5 = some 0 := by
  constructor <;> simp [calculateAverageCost]

/-- **C3, amended.** For every *nonzero* quantity `q` and all costs `c`, `x`:
`calculateAverageCost 0 0 q c = c` and `calculateAverageCost q c 0 x = c`
(blending in zero incoming quantity never changes a nonzero-quantity average);
at `q = 0` both calls return `0` instead. -/
theorem calculateAverageCost_zero_blend (q c x : ℚ) (hq : q ≠ 0) :
    calculateAverageCost 0 0 q c = some c ∧
    calculateAverageCost q c 0 x = some c := by
  constructor
  · simp [calculateAverageCost, hq]
  · simp [calculateAverageCost, hq]

theorem calculateAverageCost_zero_blend_witness :
    calculateAverageCost 0 0 2 7 = some 7 ∧ calculateAverageCost 2 7 0 9 = some 7 :=
  calculateAverageCost_zero_blend 2 7 9 (by norm_num)

/-- **C10.** `calculateAverageCost` has no finite result exactly when the total
quantity is `0` but the two quantities are not both `0` — the both-zero guard is
the only division-by-zero protection; in particular `currentQuantity = 5`,
`newQuantity = -5` falls through the guard into the zero-denominator division. -/
theorem calculateAverageCost_div_zero_hole :
    (∀ a b c d : ℚ,
      calculateAverageCost a b c d = none ↔ (a + c = 0 ∧ ¬(a = 0 ∧ c = 0))) ∧
    calculateAverageCost 5 10 (-5) 3 = none := by
  constructor
  · intro a b c d
    constructor
    · intro h
      by_cases h2 : a = 0 ∧ c = 0
      · simp [calculateAverageCost, h2] at h
      · refine ⟨?_, h2⟩
        by_contra h3
        simp [calculateAverageCost, h2, h3] at h
    · rintro ⟨h1, h2⟩
      simp [calculateAverageCost, h1, h2]
  · simp [calculateAverageCost]

theorem calculateAverageCost_div_zero_hole_witness :
    calculateAverageCost 1 2 (-1) 4 = none :=
  (calculateAverageCost_div_zero_hole.1 1 2 (-1) 4).mpr (by norm_num)

/-! ## Data model -/

/-- `inventory_items` row for one (product, branch): current quantity,
moving-average cost, update timestamp. -/
structure LedgerEntry where
  quantity : ℚ
  average_cost : ℚ
  updated_at : ℕ
deriving Repr, DecidableEq

/-- The stock ledger, keyed by (productId, branchId).  Entries are created
lazily: a key never touched holds the zero-initialized entry. -/
def Ledger : Type :=
  ℕ × ℕ → LedgerEntry

/-- The recoverable error kinds surfaced by the processors. -/
inductive Err where
  | invalidQuantity
  | insufficientStock
  | incompleteAudit
deriving Repr, DecidableEq

/-- Immutable movement records emitted alongside each ledger mutation. -/
inductive Movement where
  | purchaseReceipt (product branch : ℕ) (qty unit_price vat_percentage : ℚ)
  | transformationConsumption (product branch : ℕ) (qty cost_per_unit : ℚ)
  | transformationOutput (product branch : ℕ) (qty unit_cost : ℚ)
  | wasteDeduction (product branch : ℕ) (qty cost : ℚ) (reason : String)
  | auditAdjustment (product branch : ℕ) (delta : ℚ)
deriving Repr, DecidableEq

/-- One line of a purchase invoice form (`purchaseItemSchema`). -/
structure PurchaseItem where
  product_id : ℕ
  quantity : ℚ
  unit_price : ℚ
  vat_percentage : ℚ
deriving Repr, DecidableEq

/-- A committed `purchase_invoices` row. -/
structure PurchaseInvoiceRow where
  id : ℕ
  branch_id : ℕ
  total_amount : ℚ
  vat_amount : ℚ
deriving Repr, DecidableEq

/-- One raw-material line of a transformation form. -/
structure TransSourceItem where
  product_id : ℕ
  quantity : ℚ
deriving Repr, DecidableEq

/-- A committed `transformations` row. -/
structure TransformationRow where
  branch_id : ℕ
  target_product_id : ℕ
  target_quantity : ℚ
  total_cost : ℚ
deriving Repr, DecidableEq

/-- A committed `transformation_items` row. -/
structure TransformationItemRow where
  product_id : ℕ
  quantity : ℚ
  cost_per_unit : ℚ
  total_cost : ℚ
deriving Repr, DecidableEq

/-- A committed `waste` row. -/
structure WasteRow where
  branch_id : ℕ
  product_id : ℕ
  quantity : ℚ
  cost : ℚ
  reason : String
deriving Repr, DecidableEq

/-- A committed `inventory_adjustments` row: the explicit record of a manual
override, keyed here by (product, branch) in place of the row id of the
adjusted `inventory_items` row. -/
structure InventoryAdjustmentRow where
  product_id : ℕ
  branch_id : ℕ
  previous_quantity : ℚ
  new_quantity : ℚ
  reason : String
deriving Repr, DecidableEq

/-- Lifecycle states of an inventory audit. -/
inductive AuditStatus where
  | draft
  | in_progress
  | completed
  | cancelled
deriving Repr, DecidableEq

/-- An `inventory_audit_items` row (`difference` is kept in lockstep with
`actual_quantity` by `handleActualQuantityChange`, so it is recomputed as
`actual − expected` where needed rather than stored). -/
structure AuditItemRow where
  product_id : ℕ
  expected_quantity : ℚ
  actual_quantity : Option ℚ
deriving Repr, DecidableEq

/-- An `inventory_audits` row. -/
structure AuditRow where
  branch_id : ℕ
  status : AuditStatus
  completed_by : Option ℕ
  completed_at : Option ℕ
deriving Repr, DecidableEq

/-- The persistent-store state the processors act on: the ledger plus the
append-only record tables. -/
structure EngineState where
  ledger : Ledger
  movements : List Movement
  purchase_invoices : List PurchaseInvoiceRow
  transformations : List TransformationRow
  transformation_items : List TransformationItemRow
  waste_records : List WasteRow
  inventory_adjustments : List InventoryAdjustmentRow

/-- The empty store: a cold ledger and no records. -/
def initialState : EngineState where
  ledger := fun _ => ⟨0, 0, 0⟩
  movements := []
  purchase_invoices := []
  transformations := []
  transformation_items := []
  waste_records := []
  inventory_adjustments := []

/-! ## Trigger-side ledger primitives

The repository contains no trigger source; these are modelled from the
specification (§4.1–§4.2). -/

/-- Modelled from the spec: `blendAverageCost` — the quantity-weighted
moving-average blend used by the trigger-side ledger update, defined as `0`
when both quantities are `0`.  (The app-level counterpart in the repository
is `calculateAverageCost` above.) -/
def blendAverageCost (currentQty currentAvgCost incomingQty incomingCost : ℚ) : ℚ :=
  if currentQty = 0 ∧ incomingQty = 0 then 0
  else (currentQty * currentAvgCost + incomingQty * incomingCost) / (currentQty + incomingQty)

/-- Modelled from the spec: `applyPositiveMovement` — the trigger-side ledger
update for an incoming movement: blend the average cost, increment the
quantity, refresh the timestamp.  The entry for the key is created
implicitly. -/
def applyPositiveMovement (led : Ledger) (product branch : ℕ) (qty unitCost : ℚ)
    (now : ℕ) : Ledger :=
  fun k =>
    if k = (product, branch) then
      { quantity := (led (product, branch)).quantity + qty
        average_cost := blendAverageCost (led (product, branch)).quantity
          (led (product, branch)).average_cost qty unitCost
        updated_at := now }
    else led k

/-- Modelled from the spec: `applyNegativeMovement` — the trigger-side ledger
deduction: fails with `InsufficientStock` when `qty` exceeds the current
quantity (no negative stock is permitted anywhere); otherwise decrements the
quantity, leaving the average cost unchanged. -/
def applyNegativeMovement (led : Ledger) (product branch : ℕ) (qty : ℚ) (now : ℕ) :
    Option Ledger :=
  if qty > (led (product, branch)).quantity then none
  else
    some fun k =>
      if k = (product, branch) then
        { quantity := (led (product, branch)).quantity - qty
          average_cost := (led (product, branch)).average_cost
          updated_at := now }
      else led k

/-! ## Form schemas (zod resolvers) -/

/-- `purchaseItemSchema`: quantity ≥ 0.01, unit price ≥ 0.01, VAT percentage
between 0 and 100. -/
abbrev ValidPurchaseItem (it : PurchaseItem) : Prop :=
  0.01 ≤ it.quantity ∧ 0.01 ≤ it.unit_price ∧
    0 ≤ it.vat_percentage ∧ it.vat_percentage ≤ 100

/-- `purchaseInvoiceSchema`: at least one item and every item valid. -/
abbrev ValidPurchaseForm (items : List PurchaseItem) : Prop :=
  items ≠ [] ∧ ∀ it ∈ items, ValidPurchaseItem it

/-- `wasteSchema`: quantity ≥ 0.01 and a nonempty reason. -/
abbrev ValidWasteForm (qty : ℚ) (reason : String) : Prop :=
  0.01 ≤ qty ∧ 1 ≤ reason.length

/-- `transformationSchema`: target quantity ≥ 0.01, at least one source item,
every source quantity ≥ 0.01. -/
abbrev ValidTransformationForm (targetQty : ℚ) (sources : List TransSourceItem) : Prop :=
  0.01 ≤ targetQty ∧ sources ≠ [] ∧ ∀ it ∈ sources, 0.01 ≤ it.quantity

/-- `adjustInventorySchema`: quantity ≥ 0 and a reason of at least 3
characters. -/
abbrev ValidAdjustForm (qty : ℚ) (reason : String) : Prop :=
  0 ≤ qty ∧ 3 ≤ reason.length

/-! ## Movement processors -/

/-- The invoice subtotal accumulated by `AddPurchasePage` (an item whose
quantity or unit price is `0` — JavaScript-falsy — is skipped and contributes
nothing). -/
def invoiceSubTotal (items : List PurchaseItem) : ℚ :=
  (items.map fun it =>
    if it.quantity ≠ 0 ∧ it.unit_price ≠ 0 then it.quantity * it.unit_price else 0).sum

/-- The accumulated VAT: per item `calculateVAT(qty*unitPrice, vatPct/100)`,
with the same falsy skip as the subtotal. -/
def invoiceVatAmount (items : List PurchaseItem) : ℚ :=
  (items.map fun it =>
    if it.quantity ≠ 0 ∧ it.unit_price ≠ 0 then
      calculateVAT (it.quantity * it.unit_price) (it.vat_percentage / 100)
    else 0).sum

/-- `totalAmount = subTotal + vatAmount` as stored on the invoice row. -/
def invoiceTotal (items : List PurchaseItem) : ℚ :=
  invoiceSubTotal items + invoiceVatAmount items

/-- `onSubmit` of `AddPurchasePage`: insert the invoice row with the computed
totals and the item rows; the ledger effect is the database trigger, modelled
from the spec as one `applyPositiveMovement` per item at the item's unit
price. -/
def purchaseOnSubmit (st : EngineState) (branch : ℕ) (items : List PurchaseItem)
    (invoiceId now : ℕ) : Option Err × EngineState :=
  (none,
    { st with
      ledger := items.foldl
        (fun l it => applyPositiveMovement l it.product_id branch it.quantity it.unit_price now)
        st.ledger
      purchase_invoices := st.purchase_invoices ++
        [⟨invoiceId, branch, invoiceTotal items, invoiceVatAmount items⟩]
      movements := st.movements ++ items.map fun it =>
        Movement.purchaseReceipt it.product_id branch it.quantity it.unit_price
          it.vat_percentage })

/-- `RecordPurchase`: the form pipeline — the zod resolver rejects invalid
input before `onSubmit` runs. -/
def recordPurchase (st : EngineState) (branch : ℕ) (items : List PurchaseItem)
    (invoiceId now : ℕ) : Option Err × EngineState :=
  if ValidPurchaseForm items then purchaseOnSubmit st branch items invoiceId now
  else (some Err.invalidQuantity, st)

/-- `onSubmit` of `AddWastePage`: reject with `InsufficientStock` when the
requested quantity exceeds the available ledger quantity; otherwise insert
the waste row (cost = quantity × current average cost) and let the
trigger-side `applyNegativeMovement` deduct the stock. -/
def wasteOnSubmit (st : EngineState) (branch product : ℕ) (qty : ℚ) (reason : String)
    (now : ℕ) : Option Err × EngineState :=
  if qty > (st.ledger (product, branch)).quantity then (some Err.insufficientStock, st)
  else
    let cost := qty * (st.ledger (product, branch)).average_cost
    match applyNegativeMovement st.ledger product branch qty now with
    | none => (some Err.insufficientStock, st)
    | some led' =>
      (none,
        { st with
          ledger := led'
          waste_records := st.waste_records ++ [⟨branch, product, qty, cost, reason⟩]
          movements := st.movements ++
            [Movement.wasteDeduction product branch qty cost reason] })

/-- `RecordWaste`: zod validation, then `onSubmit`. -/
def recordWaste (st : EngineState) (branch product : ℕ) (qty : ℚ) (reason : String)
    (now : ℕ) : Option Err × EngineState :=
  if ValidWasteForm qty reason then wasteOnSubmit st branch product qty reason now
  else (some Err.invalidQuantity, st)

/-- The transformation's total cost at submission time: each source item's
`cost_per_unit` is the current ledger average cost (`updateItemCost`) and its
`total_cost` is `cost_per_unit * quantity`. -/
def transformationTotalCost (led : Ledger) (branch : ℕ)
    (sources : List TransSourceItem) : ℚ :=
  (sources.map fun it => (led (it.product_id, branch)).average_cost * it.quantity).sum

/-- Modelled from the spec: the trigger-side atomic deduction group of a
transformation — every source deduction must succeed or the whole group
fails and nothing is applied. -/
def deductAll (led : Ledger) (branch : ℕ) (sources : List TransSourceItem)
    (now : ℕ) : Option Ledger :=
  sources.foldlM (fun l it => applyNegativeMovement l it.product_id branch it.quantity now) led

/-- `onSubmit` of `AddTransformationPage`: the availability loop runs first —
any source item requesting more than the current ledger quantity aborts the
whole submission with `InsufficientStock` before anything is written; on
success the transformation row and its item rows are inserted, and the
trigger (modelled from the spec) deducts every source and posts the target
output at unit cost `total_cost / targetQty`. -/
def transformationOnSubmit (st : EngineState) (branch target : ℕ) (targetQty : ℚ)
    (sources : List TransSourceItem) (now : ℕ) : Option Err × EngineState :=
  if ∃ it ∈ sources, it.quantity > (st.ledger (it.product_id, branch)).quantity then
    (some Err.insufficientStock, st)
  else
    let totalCost := transformationTotalCost st.ledger branch sources
    match deductAll st.ledger branch sources now with
    | none => (some Err.insufficientStock, st)
    | some led' =>
      (none,
        { st with
          ledger := applyPositiveMovement led' target branch targetQty
            (totalCost / targetQty) now
          transformations := st.transformations ++ [⟨branch, target, targetQty, totalCost⟩]
          transformation_items := st.transformation_items ++ sources.map fun it =>
            ⟨it.product_id, it.quantity, (st.ledger (it.product_id, branch)).average_cost,
              (st.ledger (it.product_id, branch)).average_cost * it.quantity⟩
          movements := st.movements ++
            (sources.map fun it =>
              Movement.transformationConsumption it.product_id branch it.quantity
                (st.ledger (it.product_id, branch)).average_cost) ++
            [Movement.transformationOutput target branch targetQty (totalCost / targetQty)] })

/-- `RecordTransformation`: zod validation, then `onSubmit`. -/
def recordTransformation (st : EngineState) (branch target : ℕ) (targetQty : ℚ)
    (sources : List TransSourceItem) (now : ℕ) : Option Err × EngineState :=
  if ValidTransformationForm targetQty sources then
    transformationOnSubmit st branch target targetQty sources now
  else (some Err.invalidQuantity, st)

/-- `onSubmit` of `AdjustInventoryPage` (the spec's `setAbsolute`): insert the
`inventory_adjustments` row capturing previous and new quantity, then update
the entry's quantity and `updated_at` — nothing else on the entry changes. -/
def adjustOnSubmit (st : EngineState) (product branch : ℕ) (qty : ℚ) (reason : String)
    (now : ℕ) : Option Err × EngineState :=
  (none,
    { st with
      ledger := fun k =>
        if k = (product, branch) then
          { st.ledger (product, branch) with quantity := qty, updated_at := now }
        else st.ledger k
      inventory_adjustments := st.inventory_adjustments ++
        [⟨product, branch, (st.ledger (product, branch)).quantity, qty, reason⟩] })

/-- Manual inventory adjustment: zod validation, then `onSubmit`. -/
def adjustInventory (st : EngineState) (product branch : ℕ) (qty : ℚ) (reason : String)
    (now : ℕ) : Option Err × EngineState :=
  if ValidAdjustForm qty reason then adjustOnSubmit st product branch qty reason now
  else (some Err.invalidQuantity, st)

/-- Modelled from the spec: the trigger-side reconciliation of one completed
audit item — when the recomputed difference (actual − expected) is nonzero,
set the ledger quantity to the actual count and emit the compensating
`AuditAdjustment` movement. -/
def auditApplyItem (branch now : ℕ) (s : EngineState) (i : AuditItemRow) : EngineState :=
  match i.actual_quantity with
  | none => s
  | some actual =>
    if actual = i.expected_quantity then s
    else
      { s with
        ledger := fun k =>
          if k = (i.product_id, branch) then
            { s.ledger (i.product_id, branch) with quantity := actual, updated_at := now }
          else s.ledger k
        movements := s.movements ++
          [Movement.auditAdjustment i.product_id branch (actual - i.expected_quantity)] }

/-- Reconciliation over all items of a completing audit. -/
def auditApply (branch now : ℕ) (st : EngineState) (items : List AuditItemRow) : EngineState :=
  items.foldl (auditApplyItem branch now) st

/-- `handleCompleteAudit`: refuse with `IncompleteAudit` while any item is
uncounted; otherwise mark the audit completed (status, completed_by,
completed_at) and reconcile every counted difference into the ledger. -/
def completeAudit (st : EngineState) (audit : AuditRow) (items : List AuditItemRow)
    (userId now : ℕ) : Option Err × EngineState × AuditRow :=
  if ∃ i ∈ items, i.actual_quantity = none then (some Err.incompleteAudit, st, audit)
  else
    (none, auditApply audit.branch_id now st items,
      { audit with
        status := AuditStatus.completed
        completed_by := some userId
        completed_at := some now })

/-- `handleDeletePurchase` (`purchases/page.tsx`): deletes the invoice row
itself; the inventory revert is left to a database trigger outside the
repository, and no inverse movement record is written by the application. -/
def handleDeletePurchase (st : EngineState) (purchaseId : ℕ) : EngineState :=
  { st with purchase_invoices := st.purchase_invoices.filter fun r => r.id != purchaseId }

/-! ## Reachability -/

/-- The per-key nonnegativity invariant on the ledger. -/
def LedgerNonneg (st : EngineState) : Prop :=
  ∀ k, 0 ≤ (st.ledger k).quantity

/-- One system operation, as submitted through the validated forms.  The
audit constructor carries the nonnegativity that the actual-quantity count
input enforces (the field has `min="0"`). -/
inductive Step : EngineState → EngineState → Prop
  | purchase (st : EngineState) (branch : ℕ) (items : List PurchaseItem)
      (invoiceId now : ℕ) :
      Step st (recordPurchase st branch items invoiceId now).2
  | transformation (st : EngineState) (branch target : ℕ) (targetQty : ℚ)
      (sources : List TransSourceItem) (now : ℕ) :
      Step st (recordTransformation st branch target targetQty sources now).2
  | waste (st : EngineState) (branch product : ℕ) (qty : ℚ) (reason : String) (now : ℕ) :
      Step st (recordWaste st branch product qty reason now).2
  | adjust (st : EngineState) (product branch : ℕ) (qty : ℚ) (reason : String) (now : ℕ) :
      Step st (adjustInventory st product branch qty reason now).2
  | auditComplete (st : EngineState) (audit : AuditRow) (items : List AuditItemRow)
      (userId now : ℕ)
      (hcounted : ∀ i ∈ items, ∀ a, i.actual_quantity = some a → 0 ≤ a) :
      Step st (completeAudit st audit items userId now).2.1

/-- The states reachable from the empty store by the system's operations. -/
inductive Reachable : EngineState → Prop
  | init : Reachable initialState
  | step {st st' : EngineState} : Reachable st → Step st st' → Reachable st'

/-! ## Preservation of the nonnegativity invariant -/

theorem applyPositiveMovement_nonneg {led : Ledger} {product branch : ℕ}
    {qty unitCost : ℚ} {now : ℕ} (hq : 0 ≤ qty) (h : ∀ k, 0 ≤ (led k).quantity) :
    ∀ k, 0 ≤ ((applyPositiveMovement led product branch qty unitCost now) k).quantity := by
  intro k
  unfold applyPositiveMovement
  split
  · exact add_nonneg (h _) hq
  · exact h k

theorem applyNegativeMovement_nonneg {led led' : Ledger} {product branch : ℕ}
    {qty : ℚ} {now : ℕ}
    (hres : applyNegativeMovement led product branch qty now = some led')
    (h : ∀ k, 0 ≤ (led k).quantity) : ∀ k, 0 ≤ (led' k).quantity := by
  unfold applyNegativeMovement at hres
  split at hres
  · exact absurd hres (by simp)
  · next hgt =>
    obtain rfl := Option.some.inj hres
    intro k
    dsimp only
    split
    · have := not_lt.mp hgt
      simp only []
      linarith
    · exact h k

theorem deductAll_nonneg {branch now : ℕ} :
    ∀ (sources : List TransSourceItem) (led led' : Ledger),
      deductAll led branch sources now = some led' →
      (∀ k, 0 ≤ (led k).quantity) → ∀ k, 0 ≤ (led' k).quantity := by
  intro sources
  induction sources with
  | nil =>
    intro led led' hres h
    unfold deductAll at hres
    simp only [List.foldlM_nil] at hres
    obtain rfl := Option.some.inj hres
    exact h
  | cons it rest ih =>
    intro led led' hres h
    unfold deductAll at hres
    rw [List.foldlM_cons] at hres
    cases happ : applyNegativeMovement led it.product_id branch it.quantity now with
    | none => rw [happ] at hres; exact absurd hres (by simp)
    | some l1 =>
      rw [happ] at hres
      simp only [Option.bind_eq_bind, Option.some_bind] at hres
      exact ih l1 led' hres (applyNegativeMovement_nonneg happ h)

theorem foldl_applyPositive_nonneg {branch now : ℕ} :
    ∀ (l : List PurchaseItem) (led : Ledger),
      (∀ it ∈ l, 0 ≤ it.quantity) → (∀ k, 0 ≤ (led k).quantity) →
      ∀ k, 0 ≤ ((l.foldl (fun acc it =>
        applyPositiveMovement acc it.product_id branch it.quantity it.unit_price now)
          led) k).quantity := by
  intro l
  induction l with
  | nil => intro led _ hled; simpa using hled
  | cons it rest ih =>
    intro led hall hled
    rw [List.foldl_cons]
    exact ih _ (fun x hx => hall x (List.mem_cons_of_mem _ hx))
      (applyPositiveMovement_nonneg (hall it (List.mem_cons_self _ _)) hled)

theorem recordPurchase_nonneg (st : EngineState) (branch : ℕ)
    (items : List PurchaseItem) (invoiceId now : ℕ) (h : LedgerNonneg st) :
    LedgerNonneg (recordPurchase st branch items invoiceId now).2 := by
  unfold recordPurchase
  split
  · next hvalid =>
    intro k
    exact foldl_applyPositive_nonneg items st.ledger
      (fun it hit => le_trans (by norm_num) (hvalid.2 it hit).1) h k
  · exact h

theorem recordWaste_nonneg (st : EngineState) (branch product : ℕ) (qty : ℚ)
    (reason : String) (now : ℕ) (h : LedgerNonneg st) :
    LedgerNonneg (recordWaste st branch product qty reason now).2 := by
  unfold recordWaste wasteOnSubmit
  split
  · split
    · exact h
    · cases happ : applyNegativeMovement st.ledger product branch qty now with
      | none => simp only [happ]; exact h
      | some led' =>
        simp only [happ]
        intro k
        exact applyNegativeMovement_nonneg happ h k
  · exact h

theorem recordTransformation_nonneg (st : EngineState) (branch target : ℕ)
    (targetQty : ℚ) (sources : List TransSourceItem) (now : ℕ) (h : LedgerNonneg st) :
    LedgerNonneg (recordTransformation st branch target targetQty sources now).2 := by
  unfold recordTransformation transformationOnSubmit
  split
  · next hvalid =>
    split
    · exact h
    · cases hd : deductAll st.ledger branch sources now with
      | none => simp only [hd]; exact h
      | some led' =>
        simp only [hd]
        intro k
        exact applyPositiveMovement_nonneg (le_trans (by norm_num) hvalid.1)
          (deductAll_nonneg sources st.ledger led' hd h) k
  · exact h

theorem adjustInventory_nonneg (st : EngineState) (product branch : ℕ) (qty : ℚ)
    (reason : String) (now : ℕ) (h : LedgerNonneg st) :
    LedgerNonneg (adjustInventory st product branch qty reason now).2 := by
  unfold adjustInventory adjustOnSubmit
  split
  · next hvalid =>
    intro k
    dsimp only
    split
    · exact hvalid.1
    · exact h k
  · exact h

theorem auditApplyItem_nonneg {branch now : ℕ} {s : EngineState} {i : AuditItemRow}
    (hi : ∀ a, i.actual_quantity = some a → 0 ≤ a) (h : LedgerNonneg s) :
    LedgerNonneg (auditApplyItem branch now s i) := by
  obtain ⟨pid, exp, act⟩ := i
  cases act with
  | none => exact h
  | some actual =>
    have ha : 0 ≤ actual := hi actual rfl
    unfold auditApplyItem
    dsimp only
    split
    · exact h
    · intro k
      dsimp only
      by_cases hk : k = (pid, branch)
      · rw [if_pos hk]
        exact ha
      · rw [if_neg hk]
        exact h k

theorem auditApply_nonneg {branch now : ℕ} :
    ∀ (items : List AuditItemRow) (s : EngineState),
      (∀ i ∈ items, ∀ a, i.actual_quantity = some a → 0 ≤ a) →
      LedgerNonneg s → LedgerNonneg (auditApply branch now s items) := by
  intro items
  induction items with
  | nil => intro s _ h; exact h
  | cons i rest ih =>
    intro s hall h
    show LedgerNonneg (auditApply branch now (auditApplyItem branch now s i) rest)
    exact ih _ (fun j hj => hall j (List.mem_cons_of_mem _ hj))
      (auditApplyItem_nonneg (hall i (List.mem_cons_self _ _)) h)

theorem completeAudit_nonneg (st : EngineState) (audit : AuditRow)
    (items : List AuditItemRow) (userId now : ℕ)
    (hcounted : ∀ i ∈ items, ∀ a, i.actual_quantity = some a → 0 ≤ a)
    (h : LedgerNonneg st) :
    LedgerNonneg (completeAudit st audit items userId now).2.1 := by
  unfold completeAudit
  split
  · exact h
  · exact auditApply_nonneg items st hcounted h

theorem step_preserves_nonneg {st st' : EngineState} (hs : Step st st')
    (h : LedgerNonneg st) : LedgerNonneg st' := by
  cases hs with
  | purchase branch items invoiceId now =>
    exact recordPurchase_nonneg st branch items invoiceId now h
  | transformation branch target targetQty sources now =>
    exact recordTransformation_nonneg st branch target targetQty sources now h
  | waste branch product qty reason now =>
    exact recordWaste_nonneg st branch product qty reason now h
  | adjust product branch qty reason now =>
    exact adjustInventory_nonneg st product branch qty reason now h
  | auditComplete audit items userId now hcounted =>
    exact completeAudit_nonneg st audit items userId now hcounted h

theorem reachable_nonneg : ∀ st, Reachable st → LedgerNonneg st := by
  intro st h
  induction h with
  | init => intro k; simp [initialState]
  | step _ hs ih => exact step_preserves_nonneg hs ih

/-- The waste availability check: a request exceeding the ledger quantity is
rejected with `InsufficientStock` before anything is written. -/
theorem wasteOnSubmit_insufficient {st : EngineState} {branch product : ℕ} {qty : ℚ}
    {reason : String} {now : ℕ} (h : qty > (st.ledger (product, branch)).quantity) :
    wasteOnSubmit st branch product qty reason now = (some Err.insufficientStock, st) := by
  unfold wasteOnSubmit
  rw [if_pos h]

/-- The transformation availability loop: any source item exceeding the
ledger quantity aborts the whole submission with `InsufficientStock` before
anything is written. -/
theorem transformationOnSubmit_insufficient {st : EngineState} {branch target : ℕ}
    {targetQty : ℚ} {sources : List TransSourceItem} {now : ℕ}
    (h : ∃ it ∈ sources, it.quantity > (st.ledger (it.product_id, branch)).quantity) :
    transformationOnSubmit st branch target targetQty sources now =
      (some Err.insufficientStock, st) := by
  unfold transformationOnSubmit
  rw [if_pos h]

theorem transformationOnSubmit_success_available {st : EngineState} {branch target : ℕ}
    {targetQty : ℚ} {sources : List TransSourceItem} {now : ℕ}
    (h : (transformationOnSubmit st branch target targetQty sources now).1 = none) :
    ∀ it ∈ sources, it.quantity ≤ (st.ledger (it.product_id, branch)).quantity := by
  intro it hit
  by_contra hgt
  rw [transformationOnSubmit_insufficient ⟨it, hit, not_le.mp hgt⟩] at h
  exact absurd h (by simp)

/-- A store holding a single stocked entry, for (product 1, branch 1). -/
def singleEntryState (q c : ℚ) : EngineState :=
  { initialState with ledger := fun k => if k = (1, 1) then ⟨q, c, 0⟩ else ⟨0, 0, 0⟩ }

/-! ## Claims about the ledger and the movement processors -/

/-- **C1.** In every state reachable by the system's operations (purchase,
transformation, waste, manual adjustment, audit completion) every ledger
quantity is nonnegative; an operation whose deduction would exceed the
current ledger quantity — a waste submission, or a transformation with an
overdrawing source item — is rejected with `InsufficientStock` and leaves
the store unchanged, so no sequence of valid operations can drive a quantity
negative. -/
theorem ledger_quantity_nonneg_invariant :
    (∀ st, Reachable st → ∀ k, 0 ≤ (st.ledger k).quantity) ∧
    (∀ (st : EngineState) (branch product : ℕ) (qty : ℚ) (reason : String) (now : ℕ),
      qty > (st.ledger (product, branch)).quantity →
      wasteOnSubmit st branch product qty reason now = (some Err.insufficientStock, st)) ∧
    (∀ (st : EngineState) (branch target : ℕ) (targetQty : ℚ)
        (sources : List TransSourceItem) (now : ℕ),
      (∃ it ∈ sources, it.quantity > (st.ledger (it.product_id, branch)).quantity) →
      transformationOnSubmit st branch target targetQty sources now =
        (some Err.insufficientStock, st)) :=
  ⟨reachable_nonneg, fun _ _ _ _ _ _ h => wasteOnSubmit_insufficient h,
   fun _ _ _ _ _ _ h => transformationOnSubmit_insufficient h⟩

theorem ledger_quantity_nonneg_invariant_witness :
    0 ≤ ((initialState).ledger (1, 1)).quantity ∧
    wasteOnSubmit (singleEntryState 3 2) 1 1 9 "x" 4 =
      (some Err.insufficientStock, singleEntryState 3 2) :=
  ⟨ledger_quantity_nonneg_invariant.1 initialState Reachable.init (1, 1),
   ledger_quantity_nonneg_invariant.2.1 (singleEntryState 3 2) 1 1 9 "x" 4
     (by norm_num [singleEntryState, initialState])⟩

/-- **C5.** If any source item of a transformation submission requests more
than the current ledger quantity for its (product, branch), the whole
submission is rejected with `InsufficientStock` and the store — ledger,
transformation rows, transformation-item rows, movements — is exactly the
state before the call; conversely, a submission that succeeded had every
source item within the available quantity. -/
theorem recordTransformation_rejects_insufficient :
    (∀ (st : EngineState) (branch target : ℕ) (targetQty : ℚ)
        (sources : List TransSourceItem) (now : ℕ),
      (∃ it ∈ sources, it.quantity > (st.ledger (it.product_id, branch)).quantity) →
      transformationOnSubmit st branch target targetQty sources now =
        (some Err.insufficientStock, st)) ∧
    (∀ (st : EngineState) (branch target : ℕ) (targetQty : ℚ)
        (sources : List TransSourceItem) (now : ℕ),
      (transformationOnSubmit st branch target targetQty sources now).1 = none →
      ∀ it ∈ sources, it.quantity ≤ (st.ledger (it.product_id, branch)).quantity) :=
  ⟨fun _ _ _ _ _ _ h => transformationOnSubmit_insufficient h,
   fun _ _ _ _ _ _ h => transformationOnSubmit_success_available h⟩

theorem recordTransformation_rejects_insufficient_witness :
    transformationOnSubmit (singleEntryState 5 10) 1 2 1 [⟨1, 8⟩] 3 =
      (some Err.insufficientStock, singleEntryState 5 10) :=
  recordTransformation_rejects_insufficient.1 (singleEntryState 5 10) 1 2 1 [⟨1, 8⟩] 3
    ⟨⟨1, 8⟩, by simp, by norm_num [singleEntryState, initialState]⟩

/-- **C6.** A waste submission whose quantity exceeds the current ledger
quantity fails with `InsufficientStock` and leaves the store unchanged; in
particular with ledger (P1,B1) = {quantity 5, average_cost 10}, a waste of 8
fails and the ledger still reads {5, 10}. -/
theorem recordWaste_rejects_insufficient :
    (∀ (st : EngineState) (branch product : ℕ) (qty : ℚ) (reason : String) (now : ℕ),
      qty > (st.ledger (product, branch)).quantity →
      wasteOnSubmit st branch product qty reason now = (some Err.insufficientStock, st)) ∧
    wasteOnSubmit (singleEntryState 5 10) 1 1 8 "damage" 1 =
      (some Err.insufficientStock, singleEntryState 5 10) ∧
    ((singleEntryState 5 10).ledger (1, 1)).quantity = 5 ∧
    ((singleEntryState 5 10).ledger (1, 1)).average_cost = 10 := by
  refine ⟨fun _ _ _ _ _ _ h => wasteOnSubmit_insufficient h, ?_, ?_, ?_⟩
  · exact wasteOnSubmit_insufficient (by norm_num [singleEntryState, initialState])
  · norm_num [singleEntryState, initialState]
  · norm_num [singleEntryState, initialState]

theorem recordWaste_rejects_insufficient_witness :
    wasteOnSubmit (singleEntryState 5 10) 1 1 7 "loss" 2 =
      (some Err.insufficientStock, singleEntryState 5 10) :=
  recordWaste_rejects_insufficient.1 (singleEntryState 5 10) 1 1 7 "loss" 2
    (by norm_num [singleEntryState, initialState])

theorem invoiceTotal_eq_sum_totalWithVAT (items : List PurchaseItem) :
    invoiceTotal items =
      (items.map fun it =>
        calculateTotalWithVAT (it.quantity * it.unit_price) (it.vat_percentage / 100)).sum := by
  unfold invoiceTotal invoiceSubTotal invoiceVatAmount
  induction items with
  | nil => simp
  | cons it rest ih =>
    simp only [List.map_cons, List.sum_cons, calculateTotalWithVAT, calculateVAT] at ih ⊢
    by_cases h : it.quantity ≠ 0 ∧ it.unit_price ≠ 0
    · rw [if_pos h, if_pos h]
      linarith [ih]
    · rw [if_neg h, if_neg h]
      have hqp : it.quantity * it.unit_price = 0 := by
        rcases not_and_or.mp h with h1 | h1
        · rw [not_ne_iff] at h1
          rw [h1, zero_mul]
        · rw [not_ne_iff] at h1
          rw [h1, mul_zero]
      rw [hqp]
      simp only [zero_mul, zero_add, add_zero]
      linarith [ih]

/-- **C4.** The purchase processor computes the invoice total as
`Σ calculateTotalWithVAT(qty*unitPrice, vatPct/100)` over the items; and the
concrete Scenario A holds: from an empty store, a purchase of 10 units of
product 1 at unit price 5 with 15% VAT succeeds with invoice total 57.5
(VAT 7.5) and leaves the ledger entry at quantity 10, average cost 5. -/
theorem recordPurchase_total_and_scenario :
    (∀ items : List PurchaseItem,
      invoiceTotal items =
        (items.map fun it =>
          calculateTotalWithVAT (it.quantity * it.unit_price) (it.vat_percentage / 100)).sum) ∧
    (recordPurchase initialState 1 [⟨1, 10, 5, 15⟩] 0 7).1 = none ∧
    invoiceTotal [⟨1, 10, 5, 15⟩] = 57.5 ∧
    (recordPurchase initialState 1 [⟨1, 10, 5, 15⟩] 0 7).2.purchase_invoices =
      [⟨0, 1, 57.5, 7.5⟩] ∧
    ((recordPurchase initialState 1 [⟨1, 10, 5, 15⟩] 0 7).2.ledger (1, 1)).quantity = 10 ∧
    ((recordPurchase initialState 1 [⟨1, 10, 5, 15⟩] 0 7).2.ledger (1, 1)).average_cost = 5 := by
  have hv : ValidPurchaseForm [⟨1, 10, 5, 15⟩] := by
    refine ⟨by simp, ?_⟩
    intro it hit
    simp only [List.mem_singleton] at hit
    subst hit
    exact ⟨by norm_num, by norm_num, by norm_num, by norm_num⟩
  have hstep : recordPurchase initialState 1 [⟨1, 10, 5, 15⟩] 0 7 =
      purchaseOnSubmit initialState 1 [⟨1, 10, 5, 15⟩] 0 7 := by
    unfold recordPurchase
    rw [if_pos hv]
  refine ⟨invoiceTotal_eq_sum_totalWithVAT, ?_, ?_, ?_, ?_, ?_⟩
  · rw [hstep]
    rfl
  · norm_num [invoiceTotal, invoiceSubTotal, invoiceVatAmount, calculateVAT]
  · rw [hstep]
    simp only [purchaseOnSubmit]
    norm_num [invoiceTotal, invoiceSubTotal, invoiceVatAmount, calculateVAT, initialState]
  · rw [hstep]
    simp only [purchaseOnSubmit, List.foldl_cons, List.foldl_nil]
    norm_num [applyPositiveMovement, initialState]
  · rw [hstep]
    simp only [purchaseOnSubmit, List.foldl_cons, List.foldl_nil]
    norm_num [applyPositiveMovement, blendAverageCost, initialState]

/-- **C9.** The manual adjustment path replaces the entry's quantity with the
given value and refreshes `updated_at`, leaves `average_cost` — and every
other ledger key, and every other table except `inventory_adjustments` —
unchanged, and records an `inventory_adjustments` row carrying the previous
and the new quantity. -/
theorem adjust_sets_quantity_and_records (st : EngineState) (product branch : ℕ)
    (qty : ℚ) (reason : String) (now : ℕ) :
    ((adjustOnSubmit st product branch qty reason now).2.ledger (product, branch)).quantity
        = qty ∧
    ((adjustOnSubmit st product branch qty reason now).2.ledger (product, branch)).updated_at
        = now ∧
    ((adjustOnSubmit st product branch qty reason now).2.ledger (product, branch)).average_cost
        = (st.ledger (product, branch)).average_cost ∧
    (∀ k, k ≠ (product, branch) →
      (adjustOnSubmit st product branch qty reason now).2.ledger k = st.ledger k) ∧
    (adjustOnSubmit st product branch qty reason now).2.inventory_adjustments =
      st.inventory_adjustments ++
        [⟨product, branch, (st.ledger (product, branch)).quantity, qty, reason⟩] ∧
    (adjustOnSubmit st product branch qty reason now).2.movements = st.movements ∧
    (adjustOnSubmit st product branch qty reason now).2.purchase_invoices =
      st.purchase_invoices ∧
    (adjustOnSubmit st product branch qty reason now).2.transformations =
      st.transformations ∧
    (adjustOnSubmit st product branch qty reason now).2.waste_records = st.waste_records := by
  refine ⟨?_, ?_, ?_, ?_, rfl, rfl, rfl, rfl, rfl⟩
  · simp [adjustOnSubmit]
  · simp [adjustOnSubmit]
  · simp [adjustOnSubmit]
  · intro k hk
    simp [adjustOnSubmit, hk]

theorem adjust_sets_quantity_and_records_witness :
    ((adjustOnSubmit (singleEntryState 5 10) 1 1 12 "stock count" 3).2.ledger (1, 1)).quantity
        = 12 ∧
    (adjustOnSubmit (singleEntryState 5 10) 1 1 12 "stock count" 3).2.ledger (2, 2) =
      (singleEntryState 5 10).ledger (2, 2) := by
  obtain ⟨h1, -, -, h4, -, -, -, -, -⟩ :=
    adjust_sets_quantity_and_records (singleEntryState 5 10) 1 1 12 "stock count" 3
  exact ⟨h1, h4 (2, 2) (by decide)⟩

/-- **C7, counterexample.** Deleting a purchase invoice removes the invoice
row itself: in a store holding exactly one invoice, `handleDeletePurchase`
leaves zero invoice rows and writes no movement record — so the claim that
the delete path preserves the historical movement record and emits an
inverse movement fails on this input. -/
theorem handleDeletePurchase_erases_history :
    ({ initialState with purchase_invoices := [⟨3, 1, 57.5, 7.5⟩] }
        : EngineState).purchase_invoices.length = 1 ∧
    (handleDeletePurchase
      { initialState with purchase_invoices := [⟨3, 1, 57.5, 7.5⟩] }
      3).purchase_invoices.length = 0 ∧
    (handleDeletePurchase
      { initialState with purchase_invoices := [⟨3, 1, 57.5, 7.5⟩] }
      3).movements.length = 0 := by
  refine ⟨rfl, ?_, rfl⟩
  simp [handleDeletePurchase, initialState]

/-- **C7, amended.** `handleDeletePurchase` deletes the purchase-invoice row
with the given id from the store, delegating the inventory revert to a
database trigger outside the repository: every invoice row with a different
id survives, no row with the deleted id remains, and the handler itself
leaves the movement log and the ledger untouched — it emits no inverse
movement record. -/
theorem handleDeletePurchase_spec (st : EngineState) (purchaseId : ℕ) :
    (∀ r ∈ st.purchase_invoices, r.id ≠ purchaseId →
      r ∈ (handleDeletePurchase st purchaseId).purchase_invoices) ∧
    (∀ r ∈ (handleDeletePurchase st purchaseId).purchase_invoices, r.id ≠ purchaseId) ∧
    (handleDeletePurchase st purchaseId).movements = st.movements ∧
    (handleDeletePurchase st purchaseId).ledger = st.ledger := by
  refine ⟨?_, ?_, rfl, rfl⟩
  · intro r hr hne
    simp only [handleDeletePurchase, List.mem_filter, bne_iff_ne, ne_eq]
    exact ⟨hr, hne⟩
  · intro r hr
    simp only [handleDeletePurchase, List.mem_filter, bne_iff_ne, ne_eq] at hr
    exact hr.2

theorem handleDeletePurchase_spec_witness :
    (⟨4, 1, 10, 0⟩ : PurchaseInvoiceRow) ∈
      (handleDeletePurchase
        { initialState with purchase_invoices := [⟨3, 1, 57.5, 7.5⟩, ⟨4, 1, 10, 0⟩] }
        3).purchase_invoices :=
  (handleDeletePurchase_spec
      { initialState with purchase_invoices := [⟨3, 1, 57.5, 7.5⟩, ⟨4, 1, 10, 0⟩] } 3).1
    ⟨4, 1, 10, 0⟩ (by simp) (by decide)

/-! ## Audit completion -/

theorem auditApplyItem_ledger_ne {branch now : ℕ} {s : EngineState} {i : AuditItemRow}
    {k : ℕ × ℕ} (hk : k ≠ (i.product_id, branch)) :
    (auditApplyItem branch now s i).ledger k = s.ledger k := by
  obtain ⟨pid, exp, act⟩ := i
  cases act with
  | none => rfl
  | some actual =>
    unfold auditApplyItem
    dsimp only
    split
    · rfl
    · dsimp only
      rw [if_neg hk]

theorem auditApplyItem_movements_mono {branch now : ℕ} {s : EngineState}
    {i : AuditItemRow} {m : Movement} (hm : m ∈ s.movements) :
    m ∈ (auditApplyItem branch now s i).movements := by
  obtain ⟨pid, exp, act⟩ := i
  cases act with
  | none => exact hm
  | some actual =>
    unfold auditApplyItem
    dsimp only
    split
    · exact hm
    · exact List.mem_append_left _ hm

theorem auditApplyItem_self {branch now : ℕ} {s : EngineState} {i : AuditItemRow}
    {actual : ℚ} (hact : i.actual_quantity = some actual)
    (hne : actual ≠ i.expected_quantity) :
    ((auditApplyItem branch now s i).ledger (i.product_id, branch)).quantity = actual ∧
    Movement.auditAdjustment i.product_id branch (actual - i.expected_quantity) ∈
      (auditApplyItem branch now s i).movements := by
  obtain ⟨pid, exp, act⟩ := i
  cases act with
  | none => exact absurd hact (by simp)
  | some a =>
    obtain rfl : a = actual := Option.some.inj hact
    unfold auditApplyItem
    dsimp only
    rw [if_neg hne]
    constructor
    · dsimp only
      rw [if_pos rfl]
    · simp

theorem auditApply_ledger_untouched {branch now : ℕ} :
    ∀ (items : List AuditItemRow) (s : EngineState) (k : ℕ × ℕ),
      k.1 ∉ items.map AuditItemRow.product_id →
      (auditApply branch now s items).ledger k = s.ledger k := by
  intro items
  induction items with
  | nil => intro s k _; rfl
  | cons i rest ih =>
    intro s k hk
    simp only [List.map_cons, List.mem_cons, not_or] at hk
    show (auditApply branch now (auditApplyItem branch now s i) rest).ledger k = _
    rw [ih _ k hk.2]
    exact auditApplyItem_ledger_ne (by rintro rfl; exact hk.1 rfl)

theorem auditApply_movements_mono {branch now : ℕ} :
    ∀ (items : List AuditItemRow) (s : EngineState) (m : Movement),
      m ∈ s.movements → m ∈ (auditApply branch now s items).movements := by
  intro items
  induction items with
  | nil => intro s m hm; exact hm
  | cons i rest ih =>
    intro s m hm
    exact ih _ m (auditApplyItem_movements_mono hm)

theorem auditApply_item_effect {branch now : ℕ} :
    ∀ (items : List AuditItemRow) (s : EngineState),
      (items.map AuditItemRow.product_id).Nodup →
      ∀ i ∈ items, ∀ actual, i.actual_quantity = some actual →
        actual ≠ i.expected_quantity →
        ((auditApply branch now s items).ledger (i.product_id, branch)).quantity = actual ∧
        Movement.auditAdjustment i.product_id branch (actual - i.expected_quantity) ∈
          (auditApply branch now s items).movements := by
  intro items
  induction items with
  | nil => intro s _ i hi; exact absurd hi (List.not_mem_nil i)
  | cons j rest ih =>
    intro s hnodup i hi actual hact hne
    simp only [List.map_cons, List.nodup_cons] at hnodup
    rcases List.mem_cons.mp hi with rfl | hmem
    · have h1 := @auditApplyItem_self branch now s i actual hact hne
      constructor
      · show ((auditApply branch now (auditApplyItem branch now s i) rest).ledger
            (i.product_id, branch)).quantity = actual
        rw [auditApply_ledger_untouched rest _ (i.product_id, branch) hnodup.1]
        exact h1.1
      · exact auditApply_movements_mono rest _ _ h1.2
    · exact ih (auditApplyItem branch now s j) hnodup.2 i hmem actual hact hne

/-- **C8.** `handleCompleteAudit` fails with `IncompleteAudit` — store and
audit row untouched — while any item is uncounted; when every item is
counted, it marks the audit completed and records completed_by and
completed_at, and (the audit's items being per-product unique) every item
whose counted quantity differs from the expectation gets its ledger
quantity set to the actual count, with a compensating `AuditAdjustment`
movement of `actual − expected` emitted. -/
theorem completeAudit_spec :
    (∀ (st : EngineState) (audit : AuditRow) (items : List AuditItemRow) (userId now : ℕ),
      (∃ i ∈ items, i.actual_quantity = none) →
      completeAudit st audit items userId now = (some Err.incompleteAudit, st, audit)) ∧
    (∀ (st : EngineState) (audit : AuditRow) (items : List AuditItemRow) (userId now : ℕ),
      (∀ i ∈ items, i.actual_quantity ≠ none) →
      (completeAudit st audit items userId now).1 = none ∧
      (completeAudit st audit items userId now).2.2.status = AuditStatus.completed ∧
      (completeAudit st audit items userId now).2.2.completed_by = some userId ∧
      (completeAudit st audit items userId now).2.2.completed_at = some now) ∧
    (∀ (st : EngineState) (audit : AuditRow) (items : List AuditItemRow) (userId now : ℕ),
      (items.map AuditItemRow.product_id).Nodup →
      (∀ i ∈ items, i.actual_quantity ≠ none) →
      ∀ i ∈ items, ∀ actual, i.actual_quantity = some actual →
        actual ≠ i.expected_quantity →
        (((completeAudit st audit items userId now).2.1.ledger
            (i.product_id, audit.branch_id)).quantity = actual ∧
         Movement.auditAdjustment i.product_id audit.branch_id
             (actual - i.expected_quantity) ∈
           (completeAudit st audit items userId now).2.1.movements)) := by
  have hno : ∀ (items : List AuditItemRow), (∀ i ∈ items, i.actual_quantity ≠ none) →
      ¬∃ i ∈ items, i.actual_quantity = none := by
    rintro items hall ⟨i, hi, hnone⟩
    exact hall i hi hnone
  refine ⟨?_, ?_, ?_⟩
  · intro st audit items userId now h
    unfold completeAudit
    rw [if_pos h]
  · intro st audit items userId now hall
    unfold completeAudit
    rw [if_neg (hno items hall)]
    exact ⟨rfl, rfl, rfl, rfl⟩
  · intro st audit items userId now hnodup hall i hi actual hact hne
    unfold completeAudit
    rw [if_neg (hno items hall)]
    exact auditApply_item_effect items st hnodup i hi actual hact hne

theorem completeAudit_spec_witness :
    completeAudit (singleEntryState 15 3) ⟨1, AuditStatus.in_progress, none, none⟩
        [⟨1, 15, none⟩] 9 5 =
      (some Err.incompleteAudit, singleEntryState 15 3,
        ⟨1, AuditStatus.in_progress, none, none⟩) ∧
    (((completeAudit (singleEntryState 15 3) ⟨1, AuditStatus.in_progress, none, none⟩
        [⟨1, 15, some 12⟩] 9 5).2.1.ledger (1, 1)).quantity = 12 ∧
      Movement.auditAdjustment 1 1 (12 - 15) ∈
        (completeAudit (singleEntryState 15 3) ⟨1, AuditStatus.in_progress, none, none⟩
          [⟨1, 15, some 12⟩] 9 5).2.1.movements) := by
  constructor
  · exact completeAudit_spec.1 _ _ _ 9 5 ⟨⟨1, 15, none⟩, by simp, rfl⟩
  · exact completeAudit_spec.2.2 (singleEntryState 15 3)
      ⟨1, AuditStatus.in_progress, none, none⟩ [⟨1, 15, some 12⟩] 9 5
      (by simp) (by intro i hi; simp only [List.mem_singleton] at hi; subst hi; simp)
      ⟨1, 15, some 12⟩ (by simp) 12 rfl (by norm_num)

end StockView
